import Mathlib

/-!
Verification of the content-scanning and result-classification core of the
Steganography Analyzer repository.

The development shallowly embeds the TypeScript sources:
  * src/actions/analyze-file.ts   (findMaliciousPatterns, analyzeFileContent)
  * src/ai/flows/summarize-analysis.ts
      (summarizeAnalysisResults, summarizeAnalysisResultsFlow)
  * src/components/file-analyzer.tsx  (result classification in handleAnalyze)

Modelling conventions:
  * JavaScript strings are Lean String values; character-level work is done on
    String.data (a List Char).  All strings involved are basic latin, where
    JavaScript toLowerCase agrees with Char.toLower.
  * The signature library (imported from the missing module lib/malware-patterns,
    an external data collaborator per the spec) is an explicit parameter: an
    ordered association list of category to ordered pattern list.
  * The external LLM summarizer and the base64 decoder are injected as
    functions returning Except, modelling thrown exceptions as Except.error.
    The concrete decoder used by the repository, Node Buffer.from(s, base64)
    followed by toString(latin1), is total on strings (the Node base64 decoder
    is forgiving: invalid characters are skipped, and no exception is raised),
    so it is embedded as the total function nodeBase64DecodeLatin1.
  * A regular expression built from an escaped pattern with flag i is embedded
    by regexTestCI: the source text is first lexed as a literal-only regex
    (every unescaped metacharacter makes the lex fail, every escaped
    metacharacter denotes itself); a literal-only regex with flag i tests
    case-insensitive substring containment.  Option.none models a thrown
    construction or test error.
-/

/-! ### Case handling and substring search -/

/-- Lower-case a character list, as JavaScript toLowerCase does on basic latin. -/
def lowerChars (l : List Char) : List Char := l.map Char.toLower

/-- Boolean contiguous-substring test: does pat occur inside l? -/
def containsList (pat : List Char) : List Char → Bool
  | [] => pat.isPrefixOf ([] : List Char)
  | c :: rest => pat.isPrefixOf (c :: rest) || containsList pat rest

/-- Case-insensitive containment of one string in another, the semantics of
JavaScript content.toLowerCase().includes(pattern.toLowerCase()) on basic
latin strings, and of a literal regex with flag i. -/
def ciContains (pat s : String) : Bool :=
  containsList (lowerChars pat.data) (lowerChars s.data)

/-- Case-sensitive containment of one string in another, the semantics of a
regex test of a literal pattern with no flags. -/
def containsSub (pat s : String) : Bool := containsList pat.data s.data

theorem containsList_iff_infix (pat : List Char) :
    ∀ l : List Char, containsList pat l = true ↔ pat <:+: l := by
  intro l
  induction l with
  | nil =>
    simp [containsList, List.isPrefixOf_iff_prefix, List.infix_nil, List.prefix_nil]
  | cons c rest ih =>
    simp [containsList, List.isPrefixOf_iff_prefix, ih, List.infix_cons_iff]

/-! ### The literal-regex model -/

/-- The fourteen characters escaped by the source line
pattern.replace, which are the characters with special meaning
to the JavaScript regex engine. -/
def isRegexMeta (c : Char) : Bool :=
  c = '.' || c = '*' || c = '+' || c = '?' || c = '^' || c = '$' ||
  c = Char.ofNat 123 || c = Char.ofNat 125 || c = '(' || c = ')' ||
  c = '|' || c = '[' || c = ']' || c = '\\'

/-- Embedding of the escaping step: every regex metacharacter is preceded by a
backslash, all other characters pass through unchanged. -/
def escapeRegExp : List Char → List Char
  | [] => []
  | c :: rest =>
    if isRegexMeta c then '\\' :: c :: escapeRegExp rest
    else c :: escapeRegExp rest

/-- Lex a regex source as a literal-only regex.  An escaped metacharacter
denotes itself; an unescaped metacharacter, or any other escape, means the
source is not a plain literal and lexing fails. -/
def lexLiteralRegex : List Char → Option (List Char)
  | [] => some []
  | c :: rest =>
    if c = '\\' then
      match rest with
      | [] => none
      | d :: rest2 =>
        if isRegexMeta d then (lexLiteralRegex rest2).map (fun ds => d :: ds)
        else none
    else if isRegexMeta c then none
    else (lexLiteralRegex rest).map (fun ds => c :: ds)

/-- Embedding of new RegExp(src, i-flag).test(content): defined exactly when
the source lexes as a literal-only regex, in which case the test is
case-insensitive substring containment.  none models a thrown error. -/
def regexTestCI (src : List Char) (content : String) : Option Bool :=
  (lexLiteralRegex src).map
    (fun lits => containsList (lowerChars lits) (lowerChars content.data))

theorem lexLiteralRegex_escape (l : List Char) :
    lexLiteralRegex (escapeRegExp l) = some l := by
  induction l with
  | nil => rfl
  | cons c rest ih =>
    by_cases h : isRegexMeta c = true
    · simp only [escapeRegExp, h, if_true]
      rw [lexLiteralRegex.eq_def]
      simp [h, ih]
    · have hbs : ¬ c = '\\' := by
        intro hc
        subst hc
        simp [isRegexMeta] at h
      simp only [escapeRegExp, h, if_false, Bool.false_eq_true]
      rw [lexLiteralRegex.eq_def]
      simp [hbs, h, ih]

theorem regexTestCI_escape (p : String) (content : String) :
    regexTestCI (escapeRegExp p.data) content = some (ciContains p content) := by
  simp [regexTestCI, lexLiteralRegex_escape, ciContains]

/-! ### The Node base64 decoder (forgiving decode, latin1 output) -/

/-- Value of one base64 alphabet character; characters outside the alphabet,
padding included, are skipped by the forgiving Node decoder. -/
def base64CharVal (c : Char) : Option Nat :=
  if 'A' ≤ c ∧ c ≤ 'Z' then some (c.toNat - 65)
  else if 'a' ≤ c ∧ c ≤ 'z' then some (c.toNat - 97 + 26)
  else if '0' ≤ c ∧ c ≤ '9' then some (c.toNat - 48 + 52)
  else if c = '+' then some 62
  else if c = '/' then some 63
  else none

/-- Reassemble bytes from six-bit groups: four sextets give three bytes, a
trailing pair gives one byte and a trailing triple gives two. -/
def base64Bytes : List Nat → List Nat
  | a :: b :: c :: d :: rest =>
    (a * 4 + b / 16) :: ((b % 16) * 16 + c / 4) :: ((c % 4) * 64 + d) ::
      base64Bytes rest
  | [a, b] => [a * 4 + b / 16]
  | [a, b, c] => [a * 4 + b / 16, (b % 16) * 16 + c / 4]
  | _ => []

/-- Embedding of Buffer.from(s, base64).toString(latin1): forgiving base64
decode, each output byte mapped one-to-one to the character with that code
point.  Total: no input makes it fail. -/
def nodeBase64DecodeLatin1 (s : String) : String :=
  String.mk ((base64Bytes (s.data.filterMap base64CharVal)).map Char.ofNat)

/-! ### Data model -/

/-- One confirmed pattern match, as in analyze-file.ts. -/
structure Finding where
  pattern : String
  category : String
deriving DecidableEq, Repr

/-- The signature library: ordered categories, each with an ordered pattern
list.  Supplied by an external data collaborator (lib/malware-patterns is not
part of the scanned sources), hence a parameter of the scan. -/
abbrev SignatureLibrary := List (String × List String)

/-- The dedup key of the source, category colon pattern. -/
def patternKey (f : Finding) : String := f.category ++ ":" ++ f.pattern

/-- Flatten the library in declared order: categories in declaration order,
patterns in declaration order inside each category, exactly the iteration
order of the nested for loops of findMaliciousPatterns. -/
def libEntries (lib : SignatureLibrary) : List Finding :=
  (lib.map (fun e => e.2.map (fun p => Finding.mk p e.1))).flatten

/-- The 50 MB scan guard of findMaliciousPatterns. -/
def MAX_CONTENT_LENGTH_FOR_SCAN : Nat := 50 * 1024 * 1024

/-- The body of the nested loops of findMaliciousPatterns, one library entry at
a time, carrying the checkedPatterns set.  The matching engine is a parameter
so that a throwing engine (Option.none) can be studied; the repository
instantiates it with regexTestCI.  On a throw, content at most 50 MB falls
back to a case-insensitive literal substring search, larger content skips the
pattern. -/
def scanEntries (test : List Char → String → Option Bool) (content : String) :
    List Finding → List String → List Finding
  | [], _ => []
  | f :: rest, checked =>
    if patternKey f ∈ checked then scanEntries test content rest checked
    else
      match test (escapeRegExp f.pattern.data) content with
      | some true => f :: scanEntries test content rest (patternKey f :: checked)
      | some false => scanEntries test content rest checked
      | none =>
        if ¬ content.length > MAX_CONTENT_LENGTH_FOR_SCAN ∧
            ciContains f.pattern content = true then
          if patternKey f ∈ checked then scanEntries test content rest checked
          else f :: scanEntries test content rest (patternKey f :: checked)
        else scanEntries test content rest checked

/-- findMaliciousPatterns with the matching engine as a parameter. -/
def findMaliciousPatternsWith (test : List Char → String → Option Bool)
    (content : String) (lib : SignatureLibrary) : List Finding :=
  scanEntries test content (libEntries lib) []

/-- Embedding of findMaliciousPatterns of analyze-file.ts, with the regex
engine instantiated by the literal-regex model. -/
def findMaliciousPatterns (content : String) (lib : SignatureLibrary) :
    List Finding :=
  findMaliciousPatternsWith regexTestCI content lib

/-! ### The summarizer flow of summarize-analysis (src/unnamed/part_001) -/

/-- Lazy capture of a regex dot-star: the characters up to the first closing
parenthesis, failing when a newline or the end of input is reached first
(a regex dot does not match a newline). -/
def captureLazy : List Char → Option (List Char)
  | [] => none
  | c :: rest =>
    if c = ')' then some []
    else if c = '\n' then none
    else (captureLazy rest).map (fun ds => c :: ds)

/-- First successful match of marker followed by a lazy capture up to a
closing parenthesis, the exec of the case-sensitive capture regex in the
raw-fallback branch of summarizeAnalysisResults. -/
def execCapture (marker : List Char) : List Char → Option (List Char)
  | [] => none
  | c :: rest =>
    if marker.isPrefixOf (c :: rest) then
      match captureLazy ((c :: rest).drop marker.length) with
      | some r => some r
      | none => execCapture marker rest
    else execCapture marker rest

/-- Does b start somewhere on the same line after the end of this list segment
start, consuming only non-newline characters before it? -/
def findOnLine (b : List Char) : List Char → Bool
  | [] => b.isPrefixOf ([] : List Char)
  | c :: rest => b.isPrefixOf (c :: rest) || (c ≠ '\n' && findOnLine b rest)

/-- Test of a regex of the form a dot-star b (dot not matching newline):
some occurrence of a followed, on the same line, by b. -/
def regexSeqTest (a b : List Char) : List Char → Bool
  | [] => a.isPrefixOf ([] : List Char) && findOnLine b (List.drop a.length [])
  | c :: rest =>
    (a.isPrefixOf (c :: rest) && findOnLine b ((c :: rest).drop a.length)) ||
      regexSeqTest a b rest

/-- Case-insensitive version of the sequenced test, for a regex with flag i. -/
def testSeqCI (a b s : String) : Bool :=
  regexSeqTest (lowerChars a.data) (lowerChars b.data) (lowerChars s.data)

/-- The high-confidence threat vocabulary scanned for in the generated summary
by the post-processing guard of summarizeAnalysisResultsFlow. -/
def threatVocab : List String :=
  ["reverse shell", "malicious command", "suspicious network", "persistence",
   "destructive", "malware", "threat", "exploit", "credential dumping",
   "keylogger", "ransomware"]

/-- The benign cryptography and encoding tokens of the guard. -/
def cryptoTokens : List String := ["AES", "DES", "RSA", "Base64"]

/-- The explicit malicious-context phrases of the guard. -/
def maliciousContextPhrases : List String :=
  ["malicious use", "obfuscate", "hide C2", "ransomware behavior"]

/-- The content-processing-limitation phrases appended to the override text. -/
def limitedPhrases : List String := ["performed on raw Base64", "decoding failed"]

/-- Case-insensitive test of an alternation of literal phrases. -/
def containsAnyCI (ps : List String) (s : String) : Bool :=
  ps.any (fun p => ciContains p s)

/-- The fixed override summary substituted by the post-processing guard. -/
def aiOverrideSummary : String :=
  "The analysis detected some common code patterns (like standard encryption) but found no indicators strongly suggesting malicious activity based on the current ruleset."

/-- The limitation note appended to the override summary. -/
def aiOverrideNote : String :=
  " (Note: File analysis may have been limited due to content processing issues.)"

/-- Split at every newline, the semantics of the JavaScript split call on a
one-character separator: the number of segments is the newline count plus
one, and an empty input gives one empty segment. -/
def splitLinesChars : List Char → List (List Char)
  | [] => [[]]
  | c :: rest =>
    match splitLinesChars rest with
    | [] => [[]]
    | h :: t => if c = '\n' then [] :: h :: t else (c :: h) :: t

/-- Embedding of summarizeAnalysisResultsFlow.  The LLM prompt call is the
injected llm function; Except.error covers both a thrown prompt call and the
no-output throw, which the catch of the flow turns into the synthesized
fallback counting split newline segments minus two (JavaScript number
arithmetic, hence the Int subtraction).  On success the post-processing
guard may substitute the fixed override summary. -/
def summarizeAnalysisResultsFlow (llm : String → Except String String)
    (analysisResults : String) : String :=
  match llm analysisResults with
  | Except.error e =>
    "Analysis detected " ++
      toString (((splitLinesChars analysisResults.data).length : Int) - 2) ++
      " potential patterns. However, an error occurred while generating a detailed summary: " ++ e
  | Except.ok out =>
    if !containsAnyCI threatVocab out &&
        containsSub "analysisResults" analysisResults &&
        containsAnyCI cryptoTokens analysisResults &&
        !containsAnyCI maliciousContextPhrases analysisResults then
      if containsAnyCI limitedPhrases analysisResults then
        aiOverrideSummary ++ aiOverrideNote
      else aiOverrideSummary
    else out

/-- The fixed no-patterns summary of the first early-return branch of
summarizeAnalysisResults. -/
def noPatternsFixedSummary : String :=
  "The analysis did not detect any known malicious code patterns based on the current ruleset."

/-- The summary of the second early-return branch of summarizeAnalysisResults,
with its reason extracted by the capture regex. -/
def rawNoPatternsSummary (analysisResults : String) : String :=
  let reason :=
    match execCapture "Base64 decoding failed: ".data analysisResults.data with
    | some r => "(Reason: " ++ String.mk r ++ ")"
    | none => "(Unknown reason)"
  "No known malicious patterns were detected in the raw file content " ++
    reason ++ ". Base64 decoding failed, limiting the analysis."

/-- Embedding of the exported summarizeAnalysisResults wrapper: two
early-return branches answer without consulting the LLM flow, otherwise the
flow runs.  The Bool records whether the flow (the external summarizer) was
invoked. -/
def summarizeAnalysisResults (llm : String → Except String String)
    (analysisResults : String) : String × Bool :=
  if ciContains "No known malicious patterns detected" analysisResults &&
      !ciContains "performed on raw Base64" analysisResults then
    (noPatternsFixedSummary, false)
  else if testSeqCI "No known malicious patterns detected"
      "performed on raw Base64" analysisResults then
    (rawNoPatternsSummary analysisResults, false)
  else
    (summarizeAnalysisResultsFlow llm analysisResults, true)

/-! ### The analyze-file pipeline (src/actions/analyze-file.ts) -/

/-- Result of one server-side analysis, the AnalyzeFileOutput of the source
extended with the decode state and instrumentation recording what ran: the
text the scan was performed on (none when no scan ran) and whether the LLM
flow was consulted. -/
structure AnalyzeFileOutput where
  findings : List Finding
  summary : Option String
  error : Option String
  decodedSuccessfully : Bool
  decodeError : Option String
  scannedText : Option String
  llmCalled : Bool
deriving DecidableEq, Repr

/-- JavaScript template-literal rendering of a possibly undefined string. -/
def optStr : Option String → String
  | some s => s
  | none => "undefined"

/-- Strip everything up to and including the first comma, the data-URL header
removal of analyzeFileContent (no comma: the whole string is the payload). -/
def stripAfterComma : List Char → Option (List Char)
  | [] => none
  | c :: rest => if c = ',' then some rest else stripAfterComma rest

/-- The payload after the optional data-URL header. -/
def stripHeader (s : String) : String :=
  match stripAfterComma s.data with
  | some rest => String.mk rest
  | none => s

/-- The per-finding evidence lines, joined with newlines. -/
def detailedResults (findings : List Finding) : String :=
  String.intercalate "\n"
    (findings.map (fun f =>
      "- Category: " ++ f.category ++ ", Detected Pattern: \"" ++ f.pattern ++ "\""))

/-- Evidence header for a scan over decoded content. -/
def evidenceDecoded (n : Nat) (details : String) : String :=
  "Analysis Results (" ++ toString n ++
    " patterns found - Decoded Content Scan):\n" ++ details

/-- Evidence header for a raw-fallback scan. -/
def evidenceRaw (n : Nat) (decodeError details : String) : String :=
  "Analysis Results (" ++ toString n ++
    " patterns found - Raw Base64 Scan due to decode error: " ++ decodeError ++
    "):\n" ++ details

/-- The no-findings message for a successful decode. -/
def noPatternsDecodedMsg : String :=
  "Analysis Results: No known malicious patterns detected in the decoded file content based on the current ruleset."

/-- The no-findings message for a raw-fallback scan. -/
def noPatternsRawMsg (decodeError : String) : String :=
  "Analysis Results: No known malicious patterns detected in the raw file content (Base64 decoding failed: " ++
    decodeError ++ ")."

/-- The scan, classification and summary steps shared by both decode outcomes
of analyzeFileContent.  The summarize wrapper is total, so the try block
around the summarizer call in the findings branch of the source cannot reach
its catch here; the catch inside the flow is where an LLM failure lands. -/
def analyzeScan (llm : String → Except String String) (lib : SignatureLibrary)
    (fileDataToScan : String) (decodedSuccessfully : Bool)
    (decodeError : Option String) : AnalyzeFileOutput :=
  let detectedPatterns := findMaliciousPatterns fileDataToScan lib
  if detectedPatterns.length > 0 then
    let evidence :=
      if decodedSuccessfully then
        evidenceDecoded detectedPatterns.length (detailedResults detectedPatterns)
      else
        evidenceRaw detectedPatterns.length (optStr decodeError)
          (detailedResults detectedPatterns)
    let s := summarizeAnalysisResults llm evidence
    { findings := detectedPatterns, summary := some s.1, error := none,
      decodedSuccessfully := decodedSuccessfully, decodeError := decodeError,
      scannedText := some fileDataToScan, llmCalled := s.2 }
  else
    let msg :=
      if decodedSuccessfully then noPatternsDecodedMsg
      else noPatternsRawMsg (optStr decodeError)
    let s := summarizeAnalysisResults llm msg
    { findings := detectedPatterns, summary := some s.1, error := none,
      decodedSuccessfully := decodedSuccessfully, decodeError := decodeError,
      scannedText := some fileDataToScan, llmCalled := s.2 }

/-- Embedding of analyzeFileContent with the byte decoder injected, so that
the catch branch of the decode step (raw fallback) is a reachable model
state; Except.error is a thrown decode. -/
def analyzeFileWith (decode : String → Except String String)
    (llm : String → Except String String) (lib : SignatureLibrary)
    (fileName fileContent contentType : String) : AnalyzeFileOutput :=
  if fileName = "" ∨ fileContent = "" ∨ contentType = "" then
    { findings := [], summary := none,
      error := some "Missing required input data.",
      decodedSuccessfully := false, decodeError := none,
      scannedText := none, llmCalled := false }
  else
    let base64Data := stripHeader fileContent
    if base64Data = "" then
      { findings := [],
        summary := some "Analysis could not be performed: File content is empty.",
        error := some "File content appears to be empty after processing.",
        decodedSuccessfully := false, decodeError := none,
        scannedText := none, llmCalled := false }
    else
      match decode base64Data with
      | Except.ok decoded => analyzeScan llm lib decoded true none
      | Except.error e => analyzeScan llm lib base64Data false (some e)

/-- analyzeFileContent of the repository: the decoder is the total Node
forgiving base64 to latin1 decode, which never fails. -/
def analyzeFileContent (llm : String → Except String String)
    (lib : SignatureLibrary) (fileName fileContent contentType : String) :
    AnalyzeFileOutput :=
  analyzeFileWith (fun s => Except.ok (nodeBase64DecodeLatin1 s)) llm lib
    fileName fileContent contentType

/-! ### The caller-side classification (src/components/file-analyzer.tsx) -/

/-- The fields of the server result read by handleAnalyze. -/
structure ServerResult where
  findings : Option (List Finding)
  summary : Option String
  error : Option String
deriving DecidableEq, Repr

/-- The per-file AnalysisResult built by handleAnalyze. -/
structure AnalysisResult where
  fileName : String
  findings : List Finding
  isMalicious : Bool
  summary : Option String
  error : Option String
deriving DecidableEq, Repr

/-- Embedding of the result classification in handleAnalyze: an error result
is marked malicious with empty findings, otherwise isMalicious is the check
that the optional findings list has positive length. -/
def toAnalysisResult (fileName : String) (sr : ServerResult) : AnalysisResult :=
  match sr.error with
  | some e =>
    { fileName := fileName, isMalicious := true, error := some e,
      findings := [],
      summary := some ("Error analyzing file: " ++ e) }
  | none =>
    { fileName := fileName, findings := sr.findings.getD [],
      isMalicious := decide ((sr.findings.map List.length).getD 0 > 0),
      summary := sr.summary, error := none }

/-! ### Scanner lemmas -/

theorem scanEntries_sublist (test : List Char → String → Option Bool)
    (content : String) :
    ∀ (entries : List Finding) (checked : List String),
      List.Sublist (scanEntries test content entries checked) entries := by
  intro entries
  induction entries with
  | nil => intro checked; simp [scanEntries]
  | cons f rest ih =>
    intro checked
    rw [scanEntries]
    split
    · exact (ih checked).cons f
    · split
      · exact (ih _).cons₂ f
      · exact (ih checked).cons f
      · split
        · exact (ih _).cons₂ f
        · exact (ih checked).cons f

theorem scanEntries_keys (test : List Char → String → Option Bool)
    (content : String) :
    ∀ (entries : List Finding) (checked : List String),
      ((scanEntries test content entries checked).map patternKey).Nodup ∧
      ∀ f ∈ scanEntries test content entries checked, patternKey f ∉ checked := by
  intro entries
  induction entries with
  | nil => intro checked; simp [scanEntries]
  | cons f rest ih =>
    intro checked
    rw [scanEntries]
    split
    · exact ih checked
    · rename_i hnot
      have push :
          ((f :: scanEntries test content rest (patternKey f :: checked)).map
              patternKey).Nodup ∧
          ∀ g ∈ f :: scanEntries test content rest (patternKey f :: checked),
            patternKey g ∉ checked := by
        constructor
        · rw [List.map_cons, List.nodup_cons]
          refine ⟨?_, (ih (patternKey f :: checked)).1⟩
          intro hmem
          rcases List.mem_map.mp hmem with ⟨g, hg, hkey⟩
          exact (ih (patternKey f :: checked)).2 g hg
            (hkey ▸ List.mem_cons_self _ _)
        · intro g hg
          rcases List.mem_cons.mp hg with hg | hg
          · exact hg ▸ hnot
          · intro hin
            exact (ih (patternKey f :: checked)).2 g hg (List.mem_cons_of_mem _ hin)
      split
      · exact push
      · exact ih checked
      · split
        · exact push
        · exact ih checked

theorem countP_key_le_one {α β : Type} [DecidableEq β] (g : α → β) (k : β) :
    ∀ l : List α, (l.map g).Nodup →
      l.countP (fun x => decide (g x = k)) ≤ 1 := by
  intro l
  induction l with
  | nil => simp
  | cons x xs ih =>
    intro h
    rw [List.map_cons, List.nodup_cons] at h
    rw [List.countP_cons]
    by_cases hx : g x = k
    · have hz : xs.countP (fun x => decide (g x = k)) = 0 := by
        rw [List.countP_eq_zero]
        intro a ha hak
        have : g a = g x := (of_decide_eq_true hak).trans hx.symm
        exact h.1 (this ▸ List.mem_map_of_mem g ha)
      simp [hz, hx]
    · have hd : decide (g x = k) = false := by simp [hx]
      simp only [hd, Bool.false_eq_true, if_false, Nat.add_zero]
      exact ih h.2

/-- Claim C5: one scan records at most one Finding per distinct
(category, pattern) pair, however often the pattern occurs in the content and
however often the pair is declared in the library: the checkedPatterns key
set makes the findings list duplicate-free by composite key. -/
theorem findings_dedup_per_category_pattern
    (content : String) (lib : SignatureLibrary) (p c : String) :
    (findMaliciousPatterns content lib).countP
      (fun f => decide (f.pattern = p ∧ f.category = c)) ≤ 1 := by
  have hnodup := (scanEntries_keys regexTestCI content (libEntries lib) []).1
  have hmono : (findMaliciousPatterns content lib).countP
      (fun f => decide (f.pattern = p ∧ f.category = c)) ≤
      (findMaliciousPatterns content lib).countP
        (fun f => decide (patternKey f = c ++ ":" ++ p)) := by
    apply List.countP_mono_left
    intro f _ hpf
    rcases of_decide_eq_true hpf with ⟨h1, h2⟩
    simp [patternKey, h1, h2]
  exact hmono.trans (countP_key_le_one patternKey (c ++ ":" ++ p) _ hnodup)

/-- Claim C10: scanning is deterministic, identical content and library give
the identical findings sequence, and the findings appear in library-declared
order: the sequence is a sublist of the library flattened by category
declaration order and, inside a category, pattern declaration order. -/
theorem scan_deterministic_and_library_ordered
    (content content2 : String) (lib lib2 : SignatureLibrary)
    (hc : content = content2) (hl : lib = lib2) :
    findMaliciousPatterns content lib = findMaliciousPatterns content2 lib2 ∧
    List.Sublist (findMaliciousPatterns content lib) (libEntries lib) := by
  subst hc
  subst hl
  exact ⟨rfl, scanEntries_sublist regexTestCI content (libEntries lib) []⟩

theorem scan_deterministic_and_library_ordered_witness :
    findMaliciousPatterns "xyz" [("cat", ["y"])] =
      findMaliciousPatterns "xyz" [("cat", ["y"])] ∧
    List.Sublist (findMaliciousPatterns "xyz" [("cat", ["y"])])
      (libEntries [("cat", ["y"])]) :=
  scan_deterministic_and_library_ordered "xyz" "xyz" [("cat", ["y"])]
    [("cat", ["y"])] rfl rfl

/-- Claim C4: the matcher records a finding for a pattern exactly when the
content contains the pattern as a case-insensitive literal substring; the
escaped pattern always builds a valid literal regex (the regex test never
throws and never matches more broadly than the literal). -/
theorem escaped_pattern_matches_iff_ci_substring
    (pattern content category : String) :
    (Finding.mk pattern category ∈
        findMaliciousPatterns content [(category, [pattern])] ↔
      List.IsInfix (lowerChars pattern.data) (lowerChars content.data)) ∧
    regexTestCI (escapeRegExp pattern.data) content =
      some (ciContains pattern content) := by
  refine ⟨?_, regexTestCI_escape pattern content⟩
  rw [← containsList_iff_infix]
  have hshow : findMaliciousPatterns content [(category, [pattern])] =
      scanEntries regexTestCI content [Finding.mk pattern category] [] := rfl
  rw [hshow, scanEntries, if_neg (List.not_mem_nil _), regexTestCI_escape]
  have hun : ciContains pattern content =
      containsList (lowerChars pattern.data) (lowerChars content.data) := rfl
  cases hb : ciContains pattern content with
  | true =>
    simp only [scanEntries]
    simp [← hun, hb]
  | false =>
    simp only [scanEntries]
    simp [← hun, hb]

/-- Claim C7: when the matching engine throws for a pattern, content of at
most 50 MB recovers through the case-insensitive literal substring fallback,
recording the finding exactly when the pattern occurs; larger content skips
the pattern without a finding. -/
theorem match_error_fallback_guard
    (test : List Char → String → Option Bool)
    (category pattern content : String)
    (h : test (escapeRegExp pattern.data) content = none) :
    findMaliciousPatternsWith test content [(category, [pattern])] =
      if content.length ≤ MAX_CONTENT_LENGTH_FOR_SCAN ∧
          ciContains pattern content = true
      then [Finding.mk pattern category] else [] := by
  have hshow : findMaliciousPatternsWith test content [(category, [pattern])] =
      scanEntries test content [Finding.mk pattern category] [] := rfl
  rw [hshow, scanEntries, if_neg (List.not_mem_nil _), h]
  by_cases hg : MAX_CONTENT_LENGTH_FOR_SCAN < content.length
  · have h2 : ¬ content.length ≤ MAX_CONTENT_LENGTH_FOR_SCAN := Nat.not_le.mpr hg
    simp [hg, h2, scanEntries]
  · have h2 : content.length ≤ MAX_CONTENT_LENGTH_FOR_SCAN := Nat.le_of_not_lt hg
    by_cases hci : ciContains pattern content = true
    · simp [hg, h2, hci, scanEntries]
    · simp [hg, h2, hci, scanEntries]

theorem match_error_fallback_guard_witness :
    findMaliciousPatternsWith (fun _ _ => none) "run evil now"
        [("testcat", ["evil"])] = [Finding.mk "evil" "testcat"] :=
  (match_error_fallback_guard (fun _ _ => none) "testcat" "evil"
    "run evil now" rfl).trans (by decide)

/-! ### Pipeline lemmas and claims about analyzeFileContent -/

theorem analyzeScan_state (llm : String → Except String String)
    (lib : SignatureLibrary) (t : String) (d : Bool) (e : Option String) :
    (analyzeScan llm lib t d e).decodedSuccessfully = d ∧
    (analyzeScan llm lib t d e).decodeError = e ∧
    (analyzeScan llm lib t d e).scannedText = some t ∧
    (analyzeScan llm lib t d e).findings = findMaliciousPatterns t lib := by
  by_cases hp : (findMaliciousPatterns t lib).length > 0 <;>
    simp [analyzeScan, hp]

/-- Claim C3: the byte-preserving decode step of the repository never fails,
so the raw-fallback catch branch is unreachable: every scan on a present,
non-empty payload runs over the decoded text with decodedSuccessfully true
and no decode error recorded. -/
theorem decode_never_fails_scan_uses_decoded_text
    (llm : String → Except String String) (lib : SignatureLibrary)
    (fileName fileContent contentType : String)
    (h1 : fileName ≠ "") (h2 : fileContent ≠ "") (h3 : contentType ≠ "")
    (h4 : stripHeader fileContent ≠ "") :
    (analyzeFileContent llm lib fileName fileContent
        contentType).decodedSuccessfully = true ∧
    (analyzeFileContent llm lib fileName fileContent
        contentType).decodeError = none ∧
    (analyzeFileContent llm lib fileName fileContent contentType).scannedText =
      some (nodeBase64DecodeLatin1 (stripHeader fileContent)) := by
  have hs := analyzeScan_state llm lib
    (nodeBase64DecodeLatin1 (stripHeader fileContent)) true none
  refine ⟨?_, ?_, ?_⟩ <;>
    simp [analyzeFileContent, analyzeFileWith, h1, h2, h3, h4, hs.1, hs.2.1,
      hs.2.2.1]

theorem decode_never_fails_scan_uses_decoded_text_witness :
    (analyzeFileContent (fun _ => Except.ok "sum") [] "sample.png" "QUJD"
        "image/png").decodedSuccessfully = true ∧
    (analyzeFileContent (fun _ => Except.ok "sum") [] "sample.png" "QUJD"
        "image/png").decodeError = none ∧
    (analyzeFileContent (fun _ => Except.ok "sum") [] "sample.png" "QUJD"
        "image/png").scannedText =
      some (nodeBase64DecodeLatin1 (stripHeader "QUJD")) :=
  decode_never_fails_scan_uses_decoded_text _ _ _ _ _ (by decide) (by decide)
    (by decide) (by decide)

/-- Claim C6: an empty payload after header stripping yields the specific
file-content-is-empty error with empty findings, and neither the scan nor the
summarizer runs. -/
theorem empty_payload_specific_error_no_scan
    (decode llm : String → Except String String) (lib : SignatureLibrary)
    (fileName fileContent contentType : String)
    (h1 : fileName ≠ "") (h2 : fileContent ≠ "") (h3 : contentType ≠ "")
    (h4 : stripHeader fileContent = "") :
    analyzeFileWith decode llm lib fileName fileContent contentType =
      { findings := [],
        summary := some "Analysis could not be performed: File content is empty.",
        error := some "File content appears to be empty after processing.",
        decodedSuccessfully := false, decodeError := none,
        scannedText := none, llmCalled := false } := by
  simp [analyzeFileWith, h1, h2, h3, h4]

theorem empty_payload_specific_error_no_scan_witness :
    analyzeFileWith (fun s => Except.ok (nodeBase64DecodeLatin1 s))
        (fun _ => Except.ok "sum") [] "sample.png" "data:image/png;base64,"
        "image/png" =
      { findings := [],
        summary := some "Analysis could not be performed: File content is empty.",
        error := some "File content appears to be empty after processing.",
        decodedSuccessfully := false, decodeError := none,
        scannedText := none, llmCalled := false } :=
  empty_payload_specific_error_no_scan _ _ _ _ _ _ (by decide) (by decide)
    (by decide) (by decide)

/-- Claim C9: in the caller, a result delivered without error is malicious
exactly when its findings list is non-empty, and an error result is treated
as unsafe (isMalicious true) with empty findings. -/
theorem isMalicious_iff_findings_nonempty (fileName : String)
    (sr : ServerResult) :
    (sr.error = none →
      ((toAnalysisResult fileName sr).isMalicious = true ↔
        (toAnalysisResult fileName sr).findings ≠ [])) ∧
    (∀ e, sr.error = some e →
      (toAnalysisResult fileName sr).isMalicious = true ∧
      (toAnalysisResult fileName sr).findings = []) := by
  constructor
  · intro he
    unfold toAnalysisResult
    rw [he]
    cases hf : sr.findings with
    | none => simp [hf]
    | some l => simp [hf, List.length_pos]
  · intro e he
    unfold toAnalysisResult
    rw [he]
    exact ⟨rfl, rfl⟩

theorem isMalicious_iff_findings_nonempty_witness :
    ((toAnalysisResult "a.png"
        { findings := some [Finding.mk "evil" "cat"], summary := some "s",
          error := none }).isMalicious = true ↔
      (toAnalysisResult "a.png"
        { findings := some [Finding.mk "evil" "cat"], summary := some "s",
          error := none }).findings ≠ []) ∧
    ((toAnalysisResult "b.png"
        { findings := none, summary := none,
          error := some "boom" }).isMalicious = true ∧
      (toAnalysisResult "b.png"
        { findings := none, summary := none,
          error := some "boom" }).findings = []) :=
  ⟨(isMalicious_iff_findings_nonempty "a.png" _).1 rfl,
    (isMalicious_iff_findings_nonempty "b.png" _).2 "boom" rfl⟩

/-! ### Concrete evaluations exposing divergences from the specification -/

/-- A library holding only benign cryptography tokens under a generic
encoding category, the shape of the override-guard scenario of the spec. -/
def benignLib : SignatureLibrary := [("Encoding/Decoding", ["AES", "DES"])]

/-- Upload whose decoded content mentions AES and DES. -/
def benignUpload : String :=
  "data:text/plain;base64,VGhpcyBmaWxlIHVzZXMgQUVTIGFuZCBERVMgcm91dGluZXMu"

/-- A canned external summary free of every high-confidence threat term. -/
def benignLlmSummary : String :=
  "The file appears to use AES and DES encryption routines."

/-- The evidence block the scan builds for the two benign findings. -/
def benignEvidence : String :=
  evidenceDecoded 2 (detailedResults
    [Finding.mk "AES" "Encoding/Decoding", Finding.mk "DES" "Encoding/Decoding"])

def c1run : AnalyzeFileOutput :=
  analyzeFileContent (fun _ => Except.ok benignLlmSummary) benignLib
    "sample.png" benignUpload "text/plain"

/-- Claim C1 (evaluation at the failing input): a findings-present scan whose
evidence holds only the benign tokens AES and DES under a generic encoding
category, no malicious-context phrase, and whose external summary has no
threat vocabulary, is NOT replaced by the fixed override message: the guard
conjunct testing the literal text analysisResults inside the evidence is
false on every scan-built evidence block, so the external summary comes back
unchanged. -/
theorem override_guard_dead_on_scan_evidence :
    c1run.findings = [Finding.mk "AES" "Encoding/Decoding",
      Finding.mk "DES" "Encoding/Decoding"] ∧
    c1run.llmCalled = true ∧
    c1run.summary = some benignLlmSummary ∧
    containsAnyCI threatVocab benignLlmSummary = false ∧
    containsAnyCI cryptoTokens benignEvidence = true ∧
    containsAnyCI maliciousContextPhrases benignEvidence = false ∧
    containsSub "analysisResults" benignEvidence = false ∧
    benignLlmSummary ≠ aiOverrideSummary ∧
    benignLlmSummary ≠ aiOverrideSummary ++ aiOverrideNote := by
  decide

def c2run : AnalyzeFileOutput :=
  analyzeFileWith (fun _ => Except.error "Invalid base64 sequence")
    (fun _ => Except.error "llm unavailable") benignLib "sample.png"
    "data:image/png;base64,aGVsbG8=" "image/png"

/-- Claim C2 (evaluation at the failing input): a zero-findings scan with a
failed decode does keep the LLM out of the loop, but the returned summary is
the generic decoded-content fixed message: it mentions neither the raw
content nor the captured decode-failure reason, because the early-return
guard of the wrapper looks for the phrase performed on raw Base64, which the
caller-built raw message never contains. -/
theorem raw_no_findings_summary_drops_reason :
    c2run.findings = [] ∧
    c2run.llmCalled = false ∧
    c2run.decodedSuccessfully = false ∧
    c2run.decodeError = some "Invalid base64 sequence" ∧
    c2run.summary = some noPatternsFixedSummary ∧
    containsSub "Invalid base64 sequence" noPatternsFixedSummary = false ∧
    ciContains "raw" noPatternsFixedSummary = false := by
  decide

/-- The two-category threat library of the two-findings scenario. -/
def threatLib : SignatureLibrary :=
  [("Credential Dumping", ["mimikatz"]), ("Reverse Shell", ["reverse shell"])]

def c8run : AnalyzeFileOutput :=
  analyzeFileContent (fun _ => Except.error "AI service unavailable") threatLib
    "sample.png"
    "data:application/octet-stream;base64,bWltaWthdHogcmV2ZXJzZSBzaGVsbA=="
    "application/octet-stream"

set_option maxRecDepth 16384 in
/-- Claim C8 (evaluation at the failing input): when the LLM call fails on a
findings-present scan, the analysis does not fail and the findings pass
through unchanged, and the synthesized fallback names the failure reason, but
it states one fewer pattern than found: the flow counts newline segments of
the evidence minus two, while the evidence has one header line plus one line
per finding. -/
theorem summarizer_failure_fallback_miscounts :
    c8run.error = none ∧
    c8run.findings = [Finding.mk "mimikatz" "Credential Dumping",
      Finding.mk "reverse shell" "Reverse Shell"] ∧
    c8run.findings.length = 2 ∧
    c8run.llmCalled = true ∧
    c8run.summary = some "Analysis detected 1 potential patterns. However, an error occurred while generating a detailed summary: AI service unavailable" := by
  decide
